import Mathlib

/-!
# MQTT sensor simulator (`src/main.c`)

A shallow embedding of the Zephyr application in `src/main.c`: the MQTT event
handler `mqtt_evt_handler`, the driver `main` (connect, one bounded wait for the
CONNACK, subscribe, publish loop) and the text formatting done with `snprintf`.

Conventions of the embedding.

* Bytes are natural numbers below 256 and a C buffer is the list of its bytes.
* The Zephyr MQTT library, the socket layer, the random source and the console are
  not part of the repository.  Everything they return is supplied by an explicit
  environment (`Env`), and every call the program makes into the library is recorded,
  together with the memory as it is when the call is made, in a trace.
* The library runs the registered callback `mqtt_evt_handler` while it processes inbound
  packets, that is during `mqtt_input`; the events of each `mqtt_input` are part of the
  environment.
* `main` never leaves its `while (1)` loop.  A run is therefore observed on a finite
  number of loop iterations, one per element of `Env.loop`.
* `float` arithmetic is IEEE 754 binary32 with round to nearest, ties to even (`f32`), on
  exact rationals.
-/

namespace MqttSensorSimulator

/-! ## Bytes, strings and buffers -/

/-- UTF-8 encoding of one character, as the compiler stores it in a string literal. -/
def utf8_char (c : Char) : List Nat :=
  let v := c.toNat
  if v < 0x80 then [v]
  else if v < 0x800 then [0xC0 + v / 0x40, 0x80 + v % 0x40]
  else if v < 0x10000 then [0xE0 + v / 0x1000, 0x80 + v / 0x40 % 0x40, 0x80 + v % 0x40]
  else [0xF0 + v / 0x40000, 0x80 + v / 0x1000 % 0x40, 0x80 + v / 0x40 % 0x40, 0x80 + v % 0x40]

/-- The bytes of a C string literal (without the terminating NUL). -/
def cstr (s : String) : List Nat := s.toList.flatMap utf8_char

/-- Store `data` at the start of `buf`, leaving the bytes behind it untouched. -/
def write_bytes (buf data : List Nat) : List Nat := data ++ buf.drop data.length

/-- C `strlen`: the number of bytes before the first NUL. -/
def strlen (buf : List Nat) : Nat := (buf.takeWhile (fun b => b != 0)).length

/-- C `snprintf(buf, size, ...)` once the format has been expanded to `text`: at most
`size - 1` bytes of `text` and a NUL are stored, and the return value is the length
of the whole `text`, whether or not it fitted. -/
def snprintf (buf : List Nat) (size : Nat) (text : List Nat) : List Nat × Int :=
  if size = 0 then (buf, (text.length : Int))
  else (write_bytes buf (text.take (size - 1) ++ [0]), (text.length : Int))

/-- The buffers the program owns: the two static arrays and the local `client_id`. -/
inductive Region
  | rx_buffer
  | tx_buffer
  | client_id
  deriving DecidableEq, Repr

/-! ## Events and the event handler -/

/-- Modelled from the spec: `enum mqtt_evt_type` is declared in a Zephyr header that is
not part of the repository.  The three kinds the handler distinguishes are named; every
other kind (acknowledgements, ping responses, ...) is `other`. -/
inductive mqtt_evt_type
  | MQTT_EVT_CONNACK
  | MQTT_EVT_DISCONNECT
  | MQTT_EVT_PUBLISH
  | other (code : Nat)
  deriving DecidableEq, Repr

/-- The part of `struct mqtt_evt` the handler reads.  `topic` is
`param.publish.message.topic.topic` (its bytes; `size` is their number).  `bytes_read` and
`data` are the outcome of the call `mqtt_read_publish_payload(client, rx_buffer, 256)`
made while a PUBLISH event is handled: its return value and the bytes it stores. -/
structure mqtt_evt where
  type : mqtt_evt_type
  result : Int
  topic : List Nat
  bytes_read : Int
  data : List Nat
  deriving DecidableEq, Repr

/-- Lines written with `printk`, one constructor per call site, with the values printed. -/
inductive Log
  | starting
  | connected_to_broker
  | connection_failed (result : Int)
  | disconnected_from_broker
  | received_topic (topic : List Nat)
  | message (payload : List Nat)
  | no_payload_or_read_error
  | mqtt_connect_failed (rc : Int)
  | connection_timeout_or_failed
  | subscribe_failed (rs : Int)
  | subscribe_request_sent (message_id : Nat)
  | sensor (text : List Nat)
  | publish_failed (res : Int)
  | publish_successful
  deriving DecidableEq, Repr

/-- The program's memory: the global flag `connected`, the static buffers `rx_buffer`
and `tx_buffer`, the local `client_id` of `main`, and the console output so far. -/
structure Memory where
  connected : Bool
  rx_buffer : List Nat
  tx_buffer : List Nat
  client_id : List Nat
  console : List Log
  deriving DecidableEq, Repr

/-- Memory at program start: `connected = false`, zero-filled static buffers. -/
def Memory.init : Memory :=
  { connected := false
    rx_buffer := List.replicate 256 0
    tx_buffer := List.replicate 256 0
    client_id := List.replicate 32 0
    console := [] }

/-- C `printk`. -/
def printk (m : Memory) (l : Log) : Memory := { m with console := m.console ++ [l] }

/-- The function `mqtt_evt_handler` of `src/main.c`. -/
def mqtt_evt_handler (m : Memory) (evt : mqtt_evt) : Memory :=
  match evt.type with
  | .MQTT_EVT_CONNACK =>
    if evt.result = 0 then
      printk { m with connected := true } .connected_to_broker
    else
      printk m (.connection_failed evt.result)
  | .MQTT_EVT_DISCONNECT =>
    printk { m with connected := false } .disconnected_from_broker
  | .MQTT_EVT_PUBLISH =>
    let m1 := printk m (.received_topic evt.topic)
    let bytes_read := evt.bytes_read
    let stored := evt.data.take (min bytes_read.toNat 256)
    let m2 := { m1 with rx_buffer := write_bytes m1.rx_buffer stored }
    if bytes_read > 0 then
      printk m2 (.message (m2.rx_buffer.take bytes_read.toNat))
    else
      printk m2 .no_payload_or_read_error
  | .other _ => m

/-- The events delivered, in order, to the registered callback. -/
def deliver (m : Memory) (evts : List mqtt_evt) : Memory := evts.foldl mqtt_evt_handler m

/-- An event is a successful CONNACK: type CONNACK with result 0. -/
def is_connack_ok (e : mqtt_evt) : Bool :=
  e.type = mqtt_evt_type.MQTT_EVT_CONNACK && e.result = 0

/-- An event is a DISCONNECT. -/
def is_disconnect (e : mqtt_evt) : Bool := e.type = mqtt_evt_type.MQTT_EVT_DISCONNECT

/-! ## Text formatting: `%u` and `%.2f` -/

/-- Decimal digits of `n`, least significant first (`fuel` bounds the number of digits). -/
def dec_digits_rev : Nat → Nat → List Nat
  | 0, _ => []
  | fuel + 1, n => if n < 10 then [n] else n % 10 :: dec_digits_rev fuel (n / 10)

/-- The conversion `%u` of `printf`: the decimal digits of `n` as ASCII, most significant
first, no leading zero, `"0"` for zero. -/
def fmt_u (n : Nat) : List Nat := (dec_digits_rev (n + 1) n).reverse.map (fun d => 48 + d)

/-- Round to the nearest integer, ties to the even one (the IEEE 754 default). -/
def rne (x : ℚ) : ℤ :=
  let f := ⌊x⌋
  let r := x - f
  if r < 1 / 2 then f else if 1 / 2 < r then f + 1 else if f % 2 = 0 then f else f + 1

/-- The conversion `%.2f` of `printf` applied to the value `x` of a `double`: `x` is
rounded to the nearest hundredth and printed with all its integer digits, a point and
exactly two decimals. -/
def fmt_2f (x : ℚ) : List Nat :=
  let h := (rne (|x| * 100)).toNat
  (if x < 0 then cstr "-" else []) ++ fmt_u (h / 100) ++ cstr "."
    ++ [48 + h % 100 / 10, 48 + h % 10]

/-! ## Single precision arithmetic -/

/-- Position of the highest set bit of `n` (`fuel` bounds the number of halvings). -/
def log2f : Nat → Nat → Nat
  | 0, _ => 0
  | fuel + 1, n => if n < 2 then 0 else log2f fuel (n / 2) + 1

/-- The binary exponent of a positive rational: the `e` with `2 ^ e ≤ x < 2 ^ (e + 1)`. -/
def flog2 (x : ℚ) : ℤ :=
  let a : ℤ := log2f x.num.toNat x.num.toNat
  let b : ℤ := log2f x.den x.den
  if (2 : ℚ) ^ (a - b) ≤ x then a - b else a - b - 1

/-- Rounding of a real result to IEEE 754 binary32 (`float`), round to nearest, ties to
even: 24 significant bits, gradual underflow below `2 ^ (-126)`.  Results of magnitude
`2 ^ 128` and more, which a `float` turns into an infinity, are outside this model; no
value computed by the program comes near them. -/
def f32 (x : ℚ) : ℚ :=
  if x = 0 then 0
  else
    let e := max (flog2 |x|) (-126)
    let ulp := (2 : ℚ) ^ (e - 23)
    rne (x / ulp) * ulp

/-- The value of `double temperature = 20.0f + (rand_temp % 1500) / 100.0f;`.  The
remainder is converted to `float`, divided by `100.0f` and added to `20.0f`, all in
single precision; the conversion of the sum to `double` is exact. -/
def temperature (rand_temp : Nat) : ℚ :=
  f32 (20 + f32 (f32 ((rand_temp % 1500 : Nat) : ℚ) / 100))

/-- The value of `double humidity = 30.0f + (rand_humi % 7000) / 100.0f;`. -/
def humidity (rand_humi : Nat) : ℚ :=
  f32 (30 + f32 (f32 ((rand_humi % 7000 : Nat) : ℚ) / 100))

/-- The text `"Temperature: %.2f°C, Humidity: %.2f%%"` expanded with two values. -/
def telemetry_text (temperature humidity : ℚ) : List Nat :=
  cstr "Temperature: " ++ fmt_2f temperature ++ cstr "°C, Humidity: " ++ fmt_2f humidity
    ++ cstr "%"

/-- The text `"zephyr_mqtt_client_%u"` expanded with one value. -/
def client_id_text (r : Nat) : List Nat := cstr "zephyr_mqtt_client_" ++ fmt_u r

/-! ## The library interface used by `main` -/

/-- One entry of a subscription list: `struct mqtt_topic` (topic bytes and QoS). -/
structure mqtt_topic where
  topic : List Nat
  qos : Nat
  deriving DecidableEq, Repr

/-- The argument of `mqtt_subscribe`: `struct mqtt_subscription_list`. -/
structure mqtt_subscription_list where
  list : List mqtt_topic
  list_count : Nat
  message_id : Nat
  deriving DecidableEq, Repr

/-- The argument of `mqtt_publish`: `struct mqtt_publish_param`.  The payload is passed
as a pointer (`payload_data`, the buffer pointed to) and a length. -/
structure mqtt_publish_param where
  topic : mqtt_topic
  payload_data : Region
  payload_len : Nat
  message_id : Nat
  dup_flag : Nat
  retain_flag : Nat
  deriving DecidableEq, Repr

/-- The fields of `client_ctx` (`struct mqtt_client`) that `main` sets. -/
structure mqtt_client where
  broker_addr : String
  broker_port : Nat
  client_id_utf8 : Region
  client_id_size : Nat
  password : Option (List Nat)
  user_name : Option (List Nat)
  protocol_version : String
  transport_type : String
  rx_buf : Region
  rx_buf_size : Nat
  tx_buf : Region
  tx_buf_size : Nat
  deriving DecidableEq, Repr

/-- Modelled from the spec: the width of a packet identifier.  The field `message_id` is
declared in a Zephyr header that is not part of the repository; the spec gives packet
identifiers 16 bits. -/
def message_id_bits : Nat := 16

/-- Conversion of a 32-bit value to the `message_id` field. -/
def to_message_id (v : Nat) : Nat := v % 2 ^ message_id_bits

/-- The calls `main` makes into the MQTT library, the socket layer and the kernel. -/
inductive Call
  | mqtt_client_init
  | mqtt_connect (client : mqtt_client)
  | poll (timeout : Int)
  | mqtt_input
  | mqtt_abort
  | mqtt_subscribe (sub_list : mqtt_subscription_list)
  | mqtt_live
  | mqtt_publish (param : mqtt_publish_param)
  | k_sleep (seconds : Nat)
  deriving DecidableEq, Repr

/-- A call together with the memory as it is when the call is made. -/
structure Step where
  mem : Memory
  call : Call
  deriving DecidableEq, Repr

/-- What the outside world supplies during one iteration of the `while (1)` loop: the
events delivered to the callback by `mqtt_input`, the three values of `sys_rand32_get`
and the return value of `mqtt_publish`. -/
structure IterEnv where
  events : List mqtt_evt
  rand_temp : Nat
  rand_humi : Nat
  rand_id : Nat
  res : Int
  deriving DecidableEq, Repr

/-- What the outside world supplies during a run of `main`: the random value used for
the client identifier, the return value of `mqtt_connect`, the events delivered by the
first `mqtt_input`, the random value used for the subscription, the return value of
`mqtt_subscribe`, and one `IterEnv` per observed loop iteration. -/
structure Env where
  rand_client : Nat
  rc : Int
  events : List mqtt_evt
  rand_sub : Nat
  rs : Int
  loop : List IterEnv
  deriving DecidableEq, Repr

/-- The state of a run: the memory, the calls made so far, and the value returned by
`main` once it has returned (`none` while it is still running). -/
structure Run where
  mem : Memory
  trace : List Step
  ret : Option Int
  deriving DecidableEq, Repr

/-- The random source `sys_rand32_get` returns a 32-bit unsigned value. -/
def sys_rand32_get (raw : Nat) : Nat := raw % 2 ^ 32

/-- Record a call, made with the current memory. -/
def Run.call (r : Run) (c : Call) : Run := { r with trace := r.trace ++ [⟨r.mem, c⟩] }

/-- Write a console line. -/
def Run.printk (r : Run) (l : Log) : Run :=
  { r with mem := MqttSensorSimulator.printk r.mem l }

/-- The call `mqtt_input(&client_ctx)`: the library reads the socket and hands every
decoded packet to the registered callback `mqtt_evt_handler`. -/
def Run.mqtt_input (r : Run) (evts : List mqtt_evt) : Run :=
  let r1 := r.call .mqtt_input
  { r1 with mem := deliver r1.mem evts }

/-- The contents of a buffer. -/
def Memory.read (m : Memory) : Region → List Nat
  | .rx_buffer => m.rx_buffer
  | .tx_buffer => m.tx_buffer
  | .client_id => m.client_id

/-- The payload bytes a publish request designates: the first `payload_len` bytes of
the buffer `payload_data` points to. -/
def payload_bytes (m : Memory) (param : mqtt_publish_param) : List Nat :=
  (m.read param.payload_data).take param.payload_len

/-- The configuration `main` stores in `client_ctx` before connecting. -/
def client_ctx (m : Memory) : mqtt_client :=
  { broker_addr := "192.168.1.100"
    broker_port := 1883
    client_id_utf8 := .client_id
    client_id_size := strlen m.client_id
    password := none
    user_name := none
    protocol_version := "MQTT_VERSION_3_1_1"
    transport_type := "MQTT_TRANSPORT_NON_SECURE"
    rx_buf := .rx_buffer
    rx_buf_size := 256
    tx_buf := .tx_buffer
    tx_buf_size := 256 }

/-- The subscription list built by `main`: the one topic `"rtest"` at QoS 1
(`MQTT_QOS_1_AT_LEAST_ONCE`), with a random value stored in `message_id`. -/
def sub_list (rand : Nat) : mqtt_subscription_list :=
  { list := [{ topic := cstr "rtest", qos := 1 }]
    list_count := 1
    message_id := to_message_id rand }

/-- The publish request built in one loop iteration, `len` being the value returned by
`snprintf` (an `int`, stored in the 32-bit field `payload.len`). -/
def param (len : Int) (rand : Nat) : mqtt_publish_param :=
  { topic := { topic := cstr "sensors/temperature_humidity", qos := 2 }
    payload_data := .tx_buffer
    payload_len := (len % 2 ^ 32).toNat
    message_id := to_message_id rand
    dup_flag := 0
    retain_flag := 0 }

/-- One iteration of the `while (1)` loop of `main`. -/
def loop_body (r : Run) (it : IterEnv) : Run :=
  let r1 := r.mqtt_input it.events
  let r2 := r1.call .mqtt_live
  let rand_temp := sys_rand32_get it.rand_temp
  let rand_humi := sys_rand32_get it.rand_humi
  let out := snprintf r2.mem.tx_buffer 256
    (telemetry_text (temperature rand_temp) (humidity rand_humi))
  let len := out.2
  let r3 := { r2 with mem := { r2.mem with tx_buffer := out.1 } }
  let r4 := r3.printk (.sensor (r3.mem.tx_buffer.take (strlen r3.mem.tx_buffer)))
  let r5 := r4.call (.mqtt_publish (param len (sys_rand32_get it.rand_id)))
  let r6 := if it.res ≠ 0 then r5.printk (.publish_failed it.res)
    else r5.printk .publish_successful
  r6.call (.k_sleep 1)

/-- The start of `main`, up to and including the call of `mqtt_connect` (lines 66-97):
the banner, `mqtt_client_init`, the client identifier and the configuration. -/
def main_connect (env : Env) : Run :=
  let r0 : Run := { mem := printk Memory.init .starting, trace := [], ret := none }
  let r1 := r0.call .mqtt_client_init
  let cid := snprintf r1.mem.client_id 32 (client_id_text (sys_rand32_get env.rand_client))
  let r2 := { r1 with mem := { r1.mem with client_id := cid.1 } }
  r2.call (.mqtt_connect (client_ctx r2.mem))

/-- The wait for the answer of the broker (lines 103-107): one `poll` of 5000 ms and one
`mqtt_input`, during which the events `env.events` reach the callback. -/
def main_wait (env : Env) : Run :=
  ((main_connect env).call (.poll 5000)).mqtt_input env.events

/-- The subscription (lines 115-132). -/
def main_subscribe (env : Env) : Run :=
  let sl := sub_list (sys_rand32_get env.rand_sub)
  let r6 := (main_wait env).call (.mqtt_subscribe sl)
  if env.rs ≠ 0 then r6.printk (.subscribe_failed env.rs)
  else r6.printk (.subscribe_request_sent sl.message_id)

/-- The function `main` of `src/main.c`, observed on the loop iterations of `env.loop`. -/
def main (env : Env) : Run :=
  let r3 := main_connect env
  if env.rc ≠ 0 then
    { r3.printk (.mqtt_connect_failed env.rc) with ret := some env.rc }
  else
    let r5 := main_wait env
    if !r5.mem.connected then
      let r6 := r5.printk .connection_timeout_or_failed
      { r6.call .mqtt_abort with ret := some (-1) }
    else
      env.loop.foldl loop_body (main_subscribe env)

/-- The subscribe requests issued in a trace. -/
def subscribes (t : List Step) : List (Memory × mqtt_subscription_list) :=
  t.filterMap (fun s => match s.call with | .mqtt_subscribe l => some (s.mem, l) | _ => none)

/-- The publish requests issued in a trace. -/
def publishes (t : List Step) : List (Memory × mqtt_publish_param) :=
  t.filterMap (fun s => match s.call with | .mqtt_publish p => some (s.mem, p) | _ => none)

/-- A sample CONNACK event with the given result. -/
def connack (result : Int) : mqtt_evt :=
  { type := .MQTT_EVT_CONNACK, result := result, topic := [], bytes_read := 0, data := [] }

/-- A sample DISCONNECT event. -/
def disconnect_evt : mqtt_evt :=
  { type := .MQTT_EVT_DISCONNECT, result := 0, topic := [], bytes_read := 0, data := [] }

/-- The two-decimal rendering, as the specification words it, of the exact value
`c + k / 100` (`c` units and `k` hundredths): the decimal digits of its integer part, a
point, and the tens and units digits of the remaining hundredths. -/
def spec_two_decimals (c k : Nat) : List Nat :=
  fmt_u (c + k / 100) ++ cstr "." ++ [48 + k % 100 / 10, 48 + k % 10]

/-- The telemetry text as the specification words it: `"Temperature: T°C, Humidity: H%"`
with `T` the rendering of `20 + kt / 100` and `H` the rendering of `30 + kh / 100`. -/
def spec_telemetry (kt kh : Nat) : List Nat :=
  cstr "Temperature: " ++ spec_two_decimals 20 kt ++ cstr "°C, Humidity: "
    ++ spec_two_decimals 30 kh ++ cstr "%"

/-- A run in which the broker accepts the connection and then, during the first loop
iteration, closes it. -/
def env_disconnected : Env :=
  { rand_client := 7, rc := 0, events := [connack 0], rand_sub := 1, rs := 0
    loop := [{ events := [disconnect_evt], rand_temp := 345, rand_humi := 2510,
               rand_id := 9, res := -128 }] }

/-- A run in which the random source returns 65536 for the subscription. -/
def env_zero_id : Env :=
  { rand_client := 7, rc := 0, events := [connack 0], rand_sub := 65536, rs := -22, loop := [] }

/-- A run in which the broker rejects the connection. -/
def env_rejected : Env :=
  { rand_client := 7, rc := 0, events := [connack 5], rand_sub := 1, rs := 0, loop := [] }

/-- A run in which the broker accepts the connection and stays connected for one loop
iteration. -/
def env_connected : Env :=
  { rand_client := 7, rc := 0, events := [connack 0], rand_sub := 4660, rs := 0
    loop := [{ events := [], rand_temp := 345, rand_humi := 2510, rand_id := 9, res := 0 }] }

/-! ## The event handler and the `connected` flag -/

/-- The flag after one event, whatever else the handler does. -/
theorem handler_connected (m : Memory) (evt : mqtt_evt) :
    (mqtt_evt_handler m evt).connected =
      if is_connack_ok evt then true else if is_disconnect evt then false else m.connected := by
  unfold mqtt_evt_handler is_connack_ok is_disconnect
  rcases evt with ⟨ty, res, topic, n, data⟩
  cases ty <;> simp [printk]
  · by_cases h : res = 0 <;> simp [h]
  · split <;> rfl

/-- The flag after a sequence of events depends on the memory through the flag only. -/
theorem deliver_connected_congr (evts : List mqtt_evt) :
    ∀ m m1 : Memory, m.connected = m1.connected →
      (deliver m evts).connected = (deliver m1 evts).connected := by
  induction evts with
  | nil => intro m m1 h; simpa [deliver] using h
  | cons e es ih =>
    intro m m1 h
    have h1 : (mqtt_evt_handler m e).connected = (mqtt_evt_handler m1 e).connected := by
      rw [handler_connected, handler_connected, h]
    simpa [deliver] using ih _ _ h1

/-- If the flag is set after a sequence of events, it was set before or one of the events
is a successful CONNACK. -/
theorem deliver_connected_cases (evts : List mqtt_evt) :
    ∀ m : Memory, (deliver m evts).connected = true →
      m.connected = true ∨ ∃ e ∈ evts, is_connack_ok e = true := by
  induction evts with
  | nil => intro m h; left; simpa [deliver] using h
  | cons e es ih =>
    intro m h
    have h1 : (deliver (mqtt_evt_handler m e) es).connected = true := by simpa [deliver] using h
    rcases ih _ h1 with h2 | ⟨e1, he1, hok⟩
    · rw [handler_connected] at h2
      by_cases hc : is_connack_ok e = true
      · right; exact ⟨e, List.mem_cons_self _ _, hc⟩
      · left
        simp only [hc] at h2
        by_cases hd : is_disconnect e = true
        · simp [hd] at h2
        · simpa [hd] using h2
    · right; exact ⟨e1, List.mem_cons_of_mem _ he1, hok⟩

/-- Without a DISCONNECT event a set flag stays set. -/
theorem deliver_stays_connected (evts : List mqtt_evt) :
    ∀ m : Memory, m.connected = true → (∀ e ∈ evts, is_disconnect e = false) →
      (deliver m evts).connected = true := by
  induction evts with
  | nil => intro m h _; simpa [deliver] using h
  | cons e es ih =>
    intro m h hno
    have h1 : (mqtt_evt_handler m e).connected = true := by
      rw [handler_connected, hno e (List.mem_cons_self _ _), h]
      simp
    simpa [deliver] using ih _ h1 (fun e1 he1 => hno e1 (List.mem_cons_of_mem _ he1))

/-- Claim C7: after `mqtt_evt_handler` has handled an event the flag `connected` is true if
the event is a CONNACK with result 0, false if it is a DISCONNECT, and unchanged in every
other case; so handling DISCONNECT twice is the same as handling it once, and a CONNACK
with a non-zero result leaves the flag as it was. -/
theorem mqtt_evt_handler_connected_flag (m : Memory) (evt : mqtt_evt) :
    (evt.type = .MQTT_EVT_CONNACK ∧ evt.result = 0 → (mqtt_evt_handler m evt).connected = true)
    ∧ (evt.type = .MQTT_EVT_DISCONNECT → (mqtt_evt_handler m evt).connected = false)
    ∧ (¬ (evt.type = .MQTT_EVT_CONNACK ∧ evt.result = 0) → evt.type ≠ .MQTT_EVT_DISCONNECT →
        (mqtt_evt_handler m evt).connected = m.connected)
    ∧ (evt.type = .MQTT_EVT_DISCONNECT →
        (mqtt_evt_handler (mqtt_evt_handler m evt) evt).connected
          = (mqtt_evt_handler m evt).connected)
    ∧ (evt.type = .MQTT_EVT_CONNACK → evt.result ≠ 0 →
        (mqtt_evt_handler m evt).connected = m.connected) := by
  simp only [handler_connected, is_connack_ok, is_disconnect]
  refine ⟨?_, ?_, ?_, ?_, ?_⟩
  · rintro ⟨h1, h2⟩; simp [h1, h2]
  · intro h; simp [h]
  · intro h1 h2
    have h3 : ¬ (evt.type = .MQTT_EVT_CONNACK ∧ evt.result = 0) := h1
    simp [h2]
    intro a b
    exact absurd ⟨a, b⟩ h3
  · intro h; simp [h]
  · intro h1 h2; simp [h1, h2]

/-- Witness for C7: a successful CONNACK sets the flag of the initial memory, a DISCONNECT
clears it again, and a rejected CONNACK leaves it clear. -/
theorem mqtt_evt_handler_connected_flag_witness :
    (mqtt_evt_handler Memory.init (connack 0)).connected = true
    ∧ (mqtt_evt_handler (mqtt_evt_handler Memory.init (connack 0)) disconnect_evt).connected
        = false
    ∧ (mqtt_evt_handler Memory.init (connack 5)).connected = false :=
  ⟨(mqtt_evt_handler_connected_flag Memory.init (connack 0)).1 ⟨rfl, rfl⟩,
   (mqtt_evt_handler_connected_flag (mqtt_evt_handler Memory.init (connack 0))
      disconnect_evt).2.1 rfl,
   ((mqtt_evt_handler_connected_flag Memory.init (connack 5)).2.2.2.2 rfl (by decide)).trans rfl⟩

/-- Claim C1: starting with `connected = false`, if the flag is true after a finite
sequence of events has been handled by `mqtt_evt_handler`, the sequence contains a CONNACK
event whose result is 0. -/
theorem connected_requires_connack (m : Memory) (evts : List mqtt_evt)
    (h0 : m.connected = false) (h : (deliver m evts).connected = true) :
    ∃ e ∈ evts, e.type = .MQTT_EVT_CONNACK ∧ e.result = 0 := by
  rcases deliver_connected_cases evts m h with h1 | ⟨e, he, hok⟩
  · rw [h0] at h1; exact absurd h1 (by decide)
  · refine ⟨e, he, ?_⟩
    simpa [is_connack_ok] using hok

/-- Witness for C1: a rejected CONNACK followed by an accepted one. -/
theorem connected_requires_connack_witness :
    Memory.init.connected = false
    ∧ (deliver Memory.init [connack 5, connack 0]).connected = true
    ∧ ∃ e ∈ [connack 5, connack 0], e.type = .MQTT_EVT_CONNACK ∧ e.result = 0 :=
  ⟨rfl, by decide,
   connected_requires_connack Memory.init [connack 5, connack 0] rfl (by decide)⟩

/-! ## Runs of `main` -/

/-- The effect of one loop iteration, seen from outside: the flag is the one left by the
events of this iteration, no subscribe request is issued, and exactly one publish request
is issued, with the flag as the events left it and the freshly formatted text in
`tx_buffer`. -/
theorem loop_body_spec (r : Run) (it : IterEnv) :
    (loop_body r it).mem.connected = (deliver r.mem it.events).connected
    ∧ (loop_body r it).ret = r.ret
    ∧ subscribes (loop_body r it).trace = subscribes r.trace
    ∧ (loop_body r it).trace.filter (fun s => s.call = .mqtt_abort)
        = r.trace.filter (fun s => s.call = .mqtt_abort)
    ∧ ∃ m : Memory,
        m.connected = (deliver r.mem it.events).connected
        ∧ m.tx_buffer = (snprintf (deliver r.mem it.events).tx_buffer 256
            (telemetry_text (temperature (sys_rand32_get it.rand_temp))
              (humidity (sys_rand32_get it.rand_humi)))).1
        ∧ publishes (loop_body r it).trace = publishes r.trace ++
            [(m, param (snprintf (deliver r.mem it.events).tx_buffer 256
                (telemetry_text (temperature (sys_rand32_get it.rand_temp))
                  (humidity (sys_rand32_get it.rand_humi)))).2 (sys_rand32_get it.rand_id))] := by
  by_cases hres : it.res = 0 <;>
    simp [loop_body, Run.call, Run.printk, Run.mqtt_input, printk, subscribes, publishes,
      List.filterMap_append, List.filter_append, hres]

/-- The loop never returns, issues no subscribe request and never calls `mqtt_abort`. -/
theorem loop_spec (its : List IterEnv) :
    ∀ r : Run, (its.foldl loop_body r).ret = r.ret
      ∧ subscribes (its.foldl loop_body r).trace = subscribes r.trace
      ∧ (its.foldl loop_body r).trace.filter (fun s => s.call = .mqtt_abort)
          = r.trace.filter (fun s => s.call = .mqtt_abort) := by
  induction its with
  | nil => intro r; simp
  | cons it its ih =>
    intro r
    obtain ⟨h1, h2, h3⟩ := ih (loop_body r it)
    obtain ⟨-, g1, g2, g3, -⟩ := loop_body_spec r it
    simp only [List.foldl_cons]
    exact ⟨h1.trans g1, h2.trans g2, h3.trans g3⟩

/-- Every publish request of the loop is the one built by `param`, from the buffer
`tx_buffer`. -/
theorem loop_publishes (its : List IterEnv) :
    ∀ r : Run, ∀ p ∈ publishes (its.foldl loop_body r).trace,
      p ∈ publishes r.trace ∨ ∃ len id, p.2 = param len id := by
  induction its with
  | nil => intro r p hp; left; simpa using hp
  | cons it its ih =>
    intro r p hp
    rcases ih (loop_body r it) p (by simpa using hp) with h | h
    · obtain ⟨-, -, -, -, m, -, -, hm⟩ := loop_body_spec r it
      rw [hm, List.mem_append] at h
      rcases h with h | h
      · left; exact h
      · right
        rw [List.mem_singleton] at h
        exact ⟨_, _, by rw [h]⟩
    · right; exact h

/-- As long as no DISCONNECT event is delivered the loop stays connected, and every
publish request is issued with the flag set. -/
theorem loop_connected (its : List IterEnv) :
    ∀ r : Run, r.mem.connected = true →
      (∀ it ∈ its, ∀ e ∈ it.events, is_disconnect e = false) →
      (∀ p ∈ publishes r.trace, p.1.connected = true) →
      ∀ p ∈ publishes (its.foldl loop_body r).trace, p.1.connected = true := by
  induction its with
  | nil => intro r _ _ hp p h; exact hp p (by simpa using h)
  | cons it its ih =>
    intro r hc hno hp p h
    obtain ⟨g0, -, -, -, m, hm, -, hpub⟩ := loop_body_spec r it
    have hd : (deliver r.mem it.events).connected = true :=
      deliver_stays_connected _ _ hc (hno it (List.mem_cons_self _ _))
    refine ih (loop_body r it) (g0.trans hd)
      (fun it1 h1 => hno it1 (List.mem_cons_of_mem _ h1)) ?_ p (by simpa using h)
    intro q hq
    rw [hpub, List.mem_append] at hq
    rcases hq with hq | hq
    · exact hp q hq
    · rw [List.mem_singleton] at hq
      rw [hq]
      exact hm.trans hd

/-- The flag is clear at program start. -/
theorem init_connected : Memory.init.connected = false := rfl

/-- The state of `main` when it tests the flag: no request has been issued, and the
flag is the one the events of the first `mqtt_input` leave, starting from `false`. -/
theorem main_wait_spec (env : Env) :
    (main_wait env).mem.connected = (deliver Memory.init env.events).connected
    ∧ (main_wait env).ret = none
    ∧ subscribes (main_wait env).trace = []
    ∧ publishes (main_wait env).trace = []
    ∧ (main_wait env).trace.map Step.call =
        [.mqtt_client_init, .mqtt_connect (client_ctx (main_connect env).mem), .poll 5000,
          .mqtt_input] := by
  refine ⟨?_, ?_, ?_, ?_, ?_⟩
  · apply deliver_connected_congr
    simp [main_connect, Run.call, Run.printk, printk, init_connected]
  all_goals
    simp [main_wait, main_connect, Run.call, Run.printk, Run.mqtt_input, printk, subscribes,
      publishes]

/-- The state of `main` when it enters the loop: one subscribe request has been issued,
with the flag as the first `mqtt_input` left it, and no publish request. -/
theorem main_subscribe_spec (env : Env) :
    (main_subscribe env).mem.connected = (main_wait env).mem.connected
    ∧ (main_subscribe env).ret = none
    ∧ subscribes (main_subscribe env).trace
        = [((main_wait env).mem, sub_list (sys_rand32_get env.rand_sub))]
    ∧ publishes (main_subscribe env).trace = [] := by
  obtain ⟨-, h2, h3, h4, -⟩ := main_wait_spec env
  by_cases hrs : env.rs = 0 <;>
    simp [main_subscribe, hrs, Run.call, Run.printk, printk, h2] <;>
    simp [subscribes, publishes, List.filterMap_append] at h3 h4 ⊢ <;>
    exact ⟨h3, h4⟩

/-- When the connect call succeeds but the flag is clear after the wait, `main` logs the
failure, calls `mqtt_abort` and returns -1. -/
theorem main_not_connected (env : Env) (hrc : env.rc = 0)
    (hc : (deliver Memory.init env.events).connected = false) :
    main env = { ((main_wait env).printk .connection_timeout_or_failed).call .mqtt_abort
                 with ret := some (-1) } := by
  have h : (main_wait env).mem.connected = false := (main_wait_spec env).1.trans hc
  simp [main, hrc, h]

/-- When the connect call succeeds and the flag is set after the wait, `main` subscribes
and enters the loop. -/
theorem main_connected (env : Env) (hrc : env.rc = 0)
    (hc : (deliver Memory.init env.events).connected = true) :
    main env = env.loop.foldl loop_body (main_subscribe env) := by
  have h : (main_wait env).mem.connected = true := (main_wait_spec env).1.trans hc
  simp [main, hrc, h]

/-- When the connect call fails, `main` returns its error code at once. -/
theorem main_connect_failed (env : Env) (hrc : env.rc ≠ 0) :
    main env = { (main_connect env).printk (.mqtt_connect_failed env.rc)
                 with ret := some env.rc } := by
  simp [main, hrc]

/-- No request is issued before the connect call returns. -/
theorem main_connect_spec (env : Env) :
    subscribes (main_connect env).trace = [] ∧ publishes (main_connect env).trace = [] := by
  simp [main_connect, Run.call, subscribes, publishes]

/-- Claim C2, counterexample: the broker accepts the connection and closes it during the
first loop iteration; the publish request of that iteration is issued with
`connected = false`. -/
theorem publish_while_disconnected :
    (publishes (main env_disconnected).trace).map (fun p => p.1.connected) = [false] := by
  decide

/-- Claim C2, amended: in every run of `main` each subscribe request is issued with
`connected = true`; each publish request is issued with `connected = true` provided no
DISCONNECT event is delivered during the input steps of the loop (the loop does not test
the flag). -/
theorem requests_while_connected (env : Env) :
    (∀ p ∈ subscribes (main env).trace, p.1.connected = true)
    ∧ ((∀ it ∈ env.loop, ∀ e ∈ it.events, e.type ≠ .MQTT_EVT_DISCONNECT) →
        ∀ p ∈ publishes (main env).trace, p.1.connected = true) := by
  by_cases hrc : env.rc = 0
  · by_cases hc : (deliver Memory.init env.events).connected = true
    · obtain ⟨g1, -, g3, g4⟩ := main_subscribe_spec env
      have hw : (main_wait env).mem.connected = true := (main_wait_spec env).1.trans hc
      rw [main_connected env hrc hc]
      constructor
      · intro p hp
        rw [(loop_spec env.loop (main_subscribe env)).2.1, g3, List.mem_singleton] at hp
        rw [hp]; exact hw
      · intro hno
        apply loop_connected env.loop (main_subscribe env) (g1.trans hw)
        · intro it hit e he
          simpa [is_disconnect] using hno it hit e he
        · intro p hp; rw [g4] at hp; simp at hp
    · have hc1 : (deliver Memory.init env.events).connected = false := by simpa using hc
      obtain ⟨-, -, g3, g4, -⟩ := main_wait_spec env
      have e1 : subscribes (main env).trace = [] := by
        rw [main_not_connected env hrc hc1]
        simpa [Run.call, Run.printk, subscribes, List.filterMap_append] using g3
      have e2 : publishes (main env).trace = [] := by
        rw [main_not_connected env hrc hc1]
        simpa [Run.call, Run.printk, publishes, List.filterMap_append] using g4
      rw [e1, e2]; simp
  · obtain ⟨g3, g4⟩ := main_connect_spec env
    have e1 : subscribes (main env).trace = [] := by
      rw [main_connect_failed env hrc]; simpa [Run.printk] using g3
    have e2 : publishes (main env).trace = [] := by
      rw [main_connect_failed env hrc]; simpa [Run.printk] using g4
    rw [e1, e2]; simp

/-- Witness for C2: with a connection that stays up for one iteration, the one publish
request is issued with the flag set. -/
theorem requests_while_connected_witness :
    (subscribes (main env_connected).trace).all (fun p => p.1.connected) = true
    ∧ (publishes (main env_connected).trace).length = 1
    ∧ (publishes (main env_connected).trace).all (fun p => p.1.connected) = true :=
  ⟨List.all_eq_true.mpr (requests_while_connected env_connected).1, by decide,
   List.all_eq_true.mpr ((requests_while_connected env_connected).2 (by decide))⟩

/-- Claim C3: if `mqtt_connect` succeeds but no CONNACK with result 0 is handled during
the one 5000 ms poll and the one input step that follow, `main` ends with
`connected = false`, calls `mqtt_abort` exactly once, returns -1, and issues neither a
subscribe nor a publish request. -/
theorem handshake_failure_aborts (env : Env) (hrc : env.rc = 0)
    (hno : ∀ e ∈ env.events, ¬ (e.type = .MQTT_EVT_CONNACK ∧ e.result = 0)) :
    (main env).mem.connected = false
    ∧ (main env).ret = some (-1)
    ∧ (main env).trace.map Step.call =
        [.mqtt_client_init, .mqtt_connect (client_ctx (main_connect env).mem), .poll 5000,
          .mqtt_input, .mqtt_abort]
    ∧ ((main env).trace.map Step.call).count .mqtt_abort = 1
    ∧ subscribes (main env).trace = []
    ∧ publishes (main env).trace = [] := by
  have hc : (deliver Memory.init env.events).connected = false := by
    by_contra h
    have h1 : (deliver Memory.init env.events).connected = true := by simpa using h
    rcases deliver_connected_cases env.events Memory.init h1 with h2 | ⟨e, he, hok⟩
    · exact absurd h2 (by decide)
    · exact hno e he (by simpa [is_connack_ok] using hok)
  obtain ⟨g1, -, g3, g4, g5⟩ := main_wait_spec env
  have htrace : (main env).trace.map Step.call =
      [.mqtt_client_init, .mqtt_connect (client_ctx (main_connect env).mem), .poll 5000,
        .mqtt_input, .mqtt_abort] := by
    rw [main_not_connected env hrc hc]
    simp [Run.call, Run.printk, g5]
  refine ⟨?_, ?_, htrace, ?_, ?_, ?_⟩
  · rw [main_not_connected env hrc hc]
    simpa [Run.call, Run.printk, printk] using g1.trans hc
  · rw [main_not_connected env hrc hc]
  · rw [htrace]; simp
  · rw [main_not_connected env hrc hc]
    simpa [Run.call, Run.printk, subscribes, List.filterMap_append] using g3
  · rw [main_not_connected env hrc hc]
    simpa [Run.call, Run.printk, publishes, List.filterMap_append] using g4

/-- Witness for C3: the broker answers with a rejected CONNACK. -/
theorem handshake_failure_aborts_witness :
    env_rejected.rc = 0
    ∧ env_rejected.events = [connack 5]
    ∧ (main env_rejected).mem.connected = false
    ∧ (main env_rejected).ret = some (-1)
    ∧ ((main env_rejected).trace.map Step.call).count .mqtt_abort = 1
    ∧ subscribes (main env_rejected).trace = []
    ∧ publishes (main env_rejected).trace = [] :=
  have h := handshake_failure_aborts env_rejected rfl (by decide)
  ⟨rfl, rfl, h.1, h.2.1, h.2.2.2.1, h.2.2.2.2.1, h.2.2.2.2.2⟩

/-- Claim C4, counterexample: when the random source returns 65536 the subscribe request
carries the packet identifier 0. -/
theorem subscribe_message_id_zero :
    (subscribes (main env_zero_id).trace).map (fun p => p.2.message_id) = [0] := by
  decide

/-- Claim C4, amended: after a successful connect `main` issues exactly one subscribe
request, for the single topic `"rtest"` at QoS 1, whose 16-bit packet identifier is the
random value reduced modulo 65536; it is non-zero exactly when the random value is not a
multiple of 65536. -/
theorem subscribe_request (env : Env) (hrc : env.rc = 0)
    (hc : (deliver Memory.init env.events).connected = true) :
    (subscribes (main env).trace).map Prod.snd =
        [{ list := [{ topic := cstr "rtest", qos := 1 }], list_count := 1,
           message_id := sys_rand32_get env.rand_sub % 65536 }]
    ∧ (sys_rand32_get env.rand_sub % 65536 ≠ 0 ↔ ¬ 65536 ∣ sys_rand32_get env.rand_sub) := by
  constructor
  · rw [main_connected env hrc hc, (loop_spec env.loop (main_subscribe env)).2.1,
      (main_subscribe_spec env).2.2.1]
    simp [sub_list, to_message_id, message_id_bits]
  · rw [Nat.dvd_iff_mod_eq_zero]

/-- Witness for C4: the random source returns 4660 (0x1234) for the subscription. -/
theorem subscribe_request_witness :
    env_connected.rc = 0
    ∧ (deliver Memory.init env_connected.events).connected = true
    ∧ (subscribes (main env_connected).trace).map Prod.snd =
        [{ list := [{ topic := cstr "rtest", qos := 1 }], list_count := 1, message_id := 4660 }] :=
  ⟨rfl, by decide, (subscribe_request env_connected rfl (by decide)).1⟩

/-- Every publish request of `main` is built by `param`. -/
theorem main_publishes (env : Env) :
    ∀ p ∈ publishes (main env).trace, ∃ len id, p.2 = param len id := by
  intro p hp
  by_cases hrc : env.rc = 0
  · by_cases hc : (deliver Memory.init env.events).connected = true
    · rw [main_connected env hrc hc] at hp
      rcases loop_publishes env.loop (main_subscribe env) p hp with h | h
      · rw [(main_subscribe_spec env).2.2.2] at h; simp at h
      · exact h
    · have hc1 : (deliver Memory.init env.events).connected = false := by simpa using hc
      have e2 : publishes (main env).trace = [] := by
        rw [main_not_connected env hrc hc1]
        simpa [Run.call, Run.printk, publishes, List.filterMap_append]
          using (main_wait_spec env).2.2.2.1
      rw [e2] at hp; simp at hp
  · have e2 : publishes (main env).trace = [] := by
      rw [main_connect_failed env hrc]; simpa [Run.printk] using (main_connect_spec env).2
    rw [e2] at hp; simp at hp

/-- Claim C6, on the code: in every run of `main` the payload pointer of every publish
request is the buffer registered as the outbound buffer `tx_buf` of the client; and in the
run `env_connected`, which reaches the loop, that buffer is `tx_buffer` and holds the
telemetry text `main` has written into it with `snprintf`. -/
theorem publish_payload_is_tx_buffer (env : Env) :
    (publishes (main env).trace).all
        (fun p => decide (p.2.payload_data = (client_ctx p.1).tx_buf)) = true
    ∧ (publishes (main env_connected).trace).map
          (fun p => (p.2.payload_data, (client_ctx p.1).tx_buf, p.1.tx_buffer.take 12))
        = [(Region.tx_buffer, Region.tx_buffer, cstr "Temperature:")] := by
  constructor
  · rw [List.all_eq_true]
    intro p hp
    obtain ⟨len, id, h⟩ := main_publishes env p hp
    rw [h]
    rfl
  · decide

/-! ## Formatting with `%u` and the client identifier -/

/-- With enough fuel the digits are those of `Nat.digits`. -/
theorem dec_digits_rev_eq_digits :
    ∀ fuel n : Nat, n ≠ 0 → n < fuel → dec_digits_rev fuel n = Nat.digits 10 n := by
  intro fuel
  induction fuel with
  | zero => intro n _ h; exact absurd h (Nat.not_lt_zero n)
  | succ fuel ih =>
    intro n hn hlt
    unfold dec_digits_rev
    by_cases h10 : n < 10
    · rw [if_pos h10, Nat.digits_of_lt 10 n hn h10]
    · rw [if_neg h10, Nat.digits_def' (by decide) (Nat.pos_of_ne_zero hn),
        ih (n / 10) (by omega) (by omega)]

/-- The text printed by `%u` for a non-zero value: its decimal digits, most significant
first, as ASCII. -/
theorem fmt_u_eq (n : Nat) (hn : n ≠ 0) :
    fmt_u n = (Nat.digits 10 n).reverse.map (fun d => 48 + d) := by
  unfold fmt_u
  rw [dec_digits_rev_eq_digits (n + 1) n hn (Nat.lt_succ_self n)]

/-- The text printed by `%u` for zero. -/
theorem fmt_u_zero : fmt_u 0 = [48] := by decide

/-- The value can be read back from the text printed by `%u`. -/
theorem fmt_u_read_back (n : Nat) :
    Nat.ofDigits 10 ((fmt_u n).reverse.map (fun b => b - 48)) = n := by
  by_cases hn : n = 0
  · subst hn; rw [fmt_u_zero]; rfl
  · rw [fmt_u_eq n hn, ← List.map_reverse, List.reverse_reverse, List.map_map]
    have hid : ((fun b => b - 48) ∘ fun d => 48 + d) = (id : Nat → Nat) := by
      funext d; simp
    rw [hid, List.map_id, Nat.ofDigits_digits]

/-- Two different values are printed differently by `%u`. -/
theorem fmt_u_injective (a b : Nat) (h : fmt_u a = fmt_u b) : a = b := by
  have h1 := fmt_u_read_back a
  rw [h, fmt_u_read_back b] at h1
  exact h1.symm

/-- The text printed by `%u` for a value below `10 ^ e` has between 1 and `e` bytes. -/
theorem fmt_u_length (n e : Nat) (he : 0 < e) (hn : n < 10 ^ e) :
    1 ≤ (fmt_u n).length ∧ (fmt_u n).length ≤ e := by
  by_cases h0 : n = 0
  · subst h0; rw [fmt_u_zero]; exact ⟨le_refl 1, he⟩
  · rw [fmt_u_eq n h0, List.length_map, List.length_reverse, Nat.digits_len 10 n (by decide) h0]
    exact ⟨Nat.le_add_left 1 _, Nat.log_lt_of_lt_pow h0 hn⟩

/-- The bytes printed by `%u` are ASCII digits, so none of them is NUL. -/
theorem fmt_u_bytes (n : Nat) : ∀ b ∈ fmt_u n, 48 ≤ b ∧ b ≤ 57 := by
  by_cases h0 : n = 0
  · subst h0; rw [fmt_u_zero]; simp
  · rw [fmt_u_eq n h0]
    intro b hb
    rw [List.mem_map] at hb
    obtain ⟨d, hd, rfl⟩ := hb
    have hlt : d < 10 := Nat.digits_lt_base (by decide) (List.mem_reverse.mp hd)
    omega

/-- A value with two decimal digits is printed by `%u` as these two digits. -/
theorem fmt_u_two_digits (n : Nat) (h1 : 10 ≤ n) (h2 : n < 100) :
    fmt_u n = [48 + n / 10, 48 + n % 10] := by
  rw [fmt_u_eq n (by omega), Nat.digits_def' (by decide) (by omega),
    Nat.digits_of_lt 10 (n / 10) (by omega) (by omega)]
  rfl

/-- C `strlen` of a buffer holding a text without NUL bytes followed by a NUL. -/
theorem strlen_text (text rest : List Nat) (h : ∀ b ∈ text, b ≠ 0) :
    strlen (text ++ 0 :: rest) = text.length := by
  unfold strlen
  induction text with
  | nil => simp
  | cons b bs ih =>
    have hb : b ≠ 0 := h b (List.mem_cons_self _ _)
    have ih1 := ih (fun c hc => h c (List.mem_cons_of_mem _ hc))
    simp [List.takeWhile_cons, hb, ih1]

/-- A text shorter than the buffer is stored whole by `snprintf`, followed by a NUL, and
its length is returned. -/
theorem snprintf_fits (buf text : List Nat) (size : Nat) (h : text.length < size) :
    (snprintf buf size text).1 = text ++ 0 :: buf.drop (text.length + 1)
    ∧ (snprintf buf size text).2 = (text.length : Int) := by
  have hs : size ≠ 0 := by omega
  have ht : text.take (size - 1) = text := List.take_of_length_le (by omega)
  simp [snprintf, hs, ht, write_bytes]

/-- No byte of the literal part of the client identifier is NUL. -/
theorem client_id_literal_bytes : ∀ b ∈ cstr "zephyr_mqtt_client_", b ≠ 0 := by decide

/-- Claim C10: for every 32-bit random value `r` the client identifier is
`"zephyr_mqtt_client_"` followed by the decimal digits of `r`; it has between 20 and 29
bytes, so `snprintf` stores it whole, with its terminator, in the 32-byte buffer
`client_id`, `strlen` returns its length, and two different random values give two
different client identifiers. -/
theorem client_id_fits (r : Nat) (hr : r < 2 ^ 32) :
    client_id_text r = cstr "zephyr_mqtt_client_" ++
        (if r = 0 then cstr "0" else (Nat.digits 10 r).reverse.map (fun d => 48 + d))
    ∧ 20 ≤ (client_id_text r).length ∧ (client_id_text r).length ≤ 29
    ∧ (∀ buf : List Nat, (snprintf buf 32 (client_id_text r)).1
          = client_id_text r ++ 0 :: buf.drop ((client_id_text r).length + 1))
    ∧ (∀ buf : List Nat, (snprintf buf 32 (client_id_text r)).2 = (client_id_text r).length)
    ∧ (∀ buf : List Nat,
          strlen (snprintf buf 32 (client_id_text r)).1 = (client_id_text r).length)
    ∧ (∀ env : Env, sys_rand32_get env.rand_client = r →
          (client_ctx (main_connect env).mem).client_id_size = (client_id_text r).length
          ∧ (main_connect env).mem.client_id.take (client_id_text r).length = client_id_text r)
    ∧ (∀ r1 : Nat, r1 < 2 ^ 32 → r ≠ r1 → client_id_text r ≠ client_id_text r1) := by
  have hlen := fmt_u_length r 10 (by decide) (lt_of_lt_of_le hr (by norm_num))
  have hl : (client_id_text r).length = 19 + (fmt_u r).length := by
    simp only [client_id_text, List.length_append]
    rfl
  have hfit : (client_id_text r).length < 32 := by omega
  have hbytes : ∀ b ∈ client_id_text r, b ≠ 0 := by
    intro b hb
    simp only [client_id_text, List.mem_append] at hb
    rcases hb with hb | hb
    · exact client_id_literal_bytes b hb
    · have := fmt_u_bytes r b hb; omega
  have hstr : ∀ buf : List Nat,
      strlen (snprintf buf 32 (client_id_text r)).1 = (client_id_text r).length := by
    intro buf
    rw [(snprintf_fits buf _ 32 hfit).1]
    exact strlen_text _ _ hbytes
  refine ⟨?_, by omega, by omega, fun buf => (snprintf_fits buf _ 32 hfit).1,
    fun buf => (snprintf_fits buf _ 32 hfit).2, hstr, ?_, ?_⟩
  · unfold client_id_text
    by_cases h0 : r = 0
    · subst h0; rfl
    · rw [if_neg h0, fmt_u_eq r h0]
  · intro env henv
    have hmem : (main_connect env).mem.client_id
        = (snprintf Memory.init.client_id 32 (client_id_text r)).1 := by
      simp [main_connect, Run.call, printk, henv]
    constructor
    · simp only [client_ctx]
      rw [hmem]
      exact hstr _
    · rw [hmem, (snprintf_fits _ _ 32 hfit).1]
      simp
  · intro r1 _ hne heq
    apply hne
    unfold client_id_text at heq
    exact fmt_u_injective r r1 (List.append_cancel_left heq)

/-- Witness for C10: the largest 32-bit value gives the 29-byte identifier
`"zephyr_mqtt_client_4294967295"`. -/
theorem client_id_fits_witness :
    4294967295 < 2 ^ 32
    ∧ client_id_text 4294967295 = cstr "zephyr_mqtt_client_4294967295"
    ∧ (client_id_text 4294967295).length ≤ 29
    ∧ client_id_text 4294967295 ≠ client_id_text 7 :=
  ⟨by decide, by decide, (client_id_fits 4294967295 (by decide)).2.2.1,
   (client_id_fits 4294967295 (by decide)).2.2.2.2.2.2.2 7 (by decide) (by decide)⟩

/-! ## Rounding -/

/-- Rounding to nearest moves a value by at most one half. -/
theorem rne_spec (x : ℚ) : |(rne x : ℚ) - x| ≤ 1 / 2 := by
  have h1 : (⌊x⌋ : ℚ) ≤ x := Int.floor_le x
  have h2 : x < (⌊x⌋ : ℚ) + 1 := Int.lt_floor_add_one x
  unfold rne
  simp only
  split_ifs with c1 c2 c3
  · rw [abs_le]; constructor <;> linarith
  · push_cast; rw [abs_le]; constructor <;> linarith
  · rw [abs_le]; constructor <;> linarith
  · push_cast; rw [abs_le]; constructor <;> linarith

/-- A value less than one half away from an integer is rounded to that integer. -/
theorem rne_eq_of_close (x : ℚ) (n : ℤ) (h : |x - n| < 1 / 2) : rne x = n := by
  have h1 := rne_spec x
  rw [abs_lt] at h
  rw [abs_le] at h1
  have h2 : ((rne x - n : ℤ) : ℚ) < 1 := by push_cast; linarith [h.1, h.2, h1.1, h1.2]
  have h3 : (-1 : ℚ) < ((rne x - n : ℤ) : ℚ) := by push_cast; linarith [h.1, h.2, h1.1, h1.2]
  have h4 : rne x - n < 1 := by exact_mod_cast h2
  have h5 : -1 < rne x - n := by exact_mod_cast h3
  omega

/-- An integer is rounded to itself. -/
theorem rne_int (n : ℤ) : rne (n : ℚ) = n :=
  rne_eq_of_close _ n (by simp)

/-- With enough fuel `log2f` finds the position of the highest set bit. -/
theorem log2f_spec :
    ∀ fuel n : Nat, 1 ≤ n → n ≤ fuel →
      2 ^ log2f fuel n ≤ n ∧ n < 2 ^ (log2f fuel n + 1) := by
  intro fuel
  induction fuel with
  | zero => intro n h1 h2; omega
  | succ fuel ih =>
    intro n h1 h2
    unfold log2f
    by_cases h : n < 2
    · rw [if_pos h]; simp; omega
    · rw [if_neg h]
      obtain ⟨g1, g2⟩ := ih (n / 2) (by omega) (by omega)
      rw [pow_succ, pow_succ]
      rw [pow_succ] at g2
      constructor <;> omega

/-- The exponent found by `flog2` is the binary exponent of a positive rational. -/
theorem flog2_spec (x : ℚ) (hx : 0 < x) :
    (2 : ℚ) ^ flog2 x ≤ x ∧ x < (2 : ℚ) ^ (flog2 x + 1) := by
  have hnum : 0 < x.num := Rat.num_pos.mpr hx
  have hden : 0 < x.den := x.den_pos
  have hn1 : 1 ≤ x.num.toNat := by omega
  obtain ⟨a1, a2⟩ := log2f_spec x.num.toNat x.num.toNat hn1 (le_refl _)
  obtain ⟨b1, b2⟩ := log2f_spec x.den x.den hden (le_refl _)
  have hxq : x = (x.num.toNat : ℚ) / (x.den : ℚ) := by
    have hc : ((x.num.toNat : ℕ) : ℚ) = (x.num : ℚ) := by
      have : ((x.num.toNat : ℕ) : ℤ) = x.num := Int.toNat_of_nonneg hnum.le
      exact_mod_cast congrArg (fun z : ℤ => (z : ℚ)) this
    rw [hc]
    exact (Rat.num_div_den x).symm
  have a1q : (2 : ℚ) ^ log2f x.num.toNat x.num.toNat ≤ (x.num.toNat : ℚ) := by exact_mod_cast a1
  have a2q : (x.num.toNat : ℚ) < (2 : ℚ) ^ (log2f x.num.toNat x.num.toNat + 1) := by
    exact_mod_cast a2
  have b1q : (2 : ℚ) ^ log2f x.den x.den ≤ (x.den : ℚ) := by exact_mod_cast b1
  have b2q : (x.den : ℚ) < (2 : ℚ) ^ (log2f x.den x.den + 1) := by exact_mod_cast b2
  have hdq : (0 : ℚ) < (x.den : ℚ) := by exact_mod_cast hden
  have two : (2 : ℚ) ≠ 0 := by norm_num
  set a := log2f x.num.toNat x.num.toNat with ha
  set b := log2f x.den x.den with hb
  have lower : (2 : ℚ) ^ ((a : ℤ) - b - 1) ≤ x := by
    have e : (2 : ℚ) ^ ((a : ℤ) - b - 1) = (2 : ℚ) ^ a / (2 : ℚ) ^ (b + 1) := by
      rw [show (a : ℤ) - b - 1 = (a : ℤ) - ((b + 1 : ℕ) : ℤ) by push_cast; ring,
        zpow_sub₀ two, zpow_natCast, zpow_natCast]
    rw [e, hxq]
    exact div_le_div₀ (by positivity) a1q hdq b2q.le
  have upper : x < (2 : ℚ) ^ ((a : ℤ) - b + 1) := by
    have e : (2 : ℚ) ^ ((a : ℤ) - b + 1) = (2 : ℚ) ^ (a + 1) / (2 : ℚ) ^ b := by
      rw [show (a : ℤ) - b + 1 = ((a + 1 : ℕ) : ℤ) - (b : ℤ) by push_cast; ring,
        zpow_sub₀ two, zpow_natCast, zpow_natCast]
    rw [e]
    conv_lhs => rw [hxq]
    exact div_lt_div₀ a2q b1q (by positivity) (by positivity)
  unfold flog2
  simp only
  rw [← ha, ← hb]
  split_ifs with c
  · exact ⟨c, upper⟩
  · refine ⟨lower, ?_⟩
    rw [show (a : ℤ) - b - 1 + 1 = (a : ℤ) - b by ring]
    exact lt_of_not_le c

/-- Rounding to single precision moves a value of the normal range by at most the
fraction `2 ^ (-24)` of itself. -/
theorem f32_err (x : ℚ) (hx : (2 : ℚ) ^ (-126 : ℤ) ≤ x) : |f32 x - x| ≤ x / 2 ^ 24 := by
  have hpos : 0 < x := lt_of_lt_of_le (by positivity) hx
  have two : (2 : ℚ) ≠ 0 := by norm_num
  unfold f32
  rw [if_neg hpos.ne.symm]
  simp only [abs_of_pos hpos]
  set e := max (flog2 x) (-126) with he
  have hle : (2 : ℚ) ^ e ≤ x := by
    rcases max_choice (flog2 x) (-126) with h | h
    · rw [he, h]; exact (flog2_spec x hpos).1
    · rw [he, h]; exact hx
  have hulp : (0 : ℚ) < (2 : ℚ) ^ (e - 23) := by positivity
  have hsplit : (rne (x / (2 : ℚ) ^ (e - 23)) : ℚ) * (2 : ℚ) ^ (e - 23) - x
      = ((rne (x / (2 : ℚ) ^ (e - 23)) : ℚ) - x / (2 : ℚ) ^ (e - 23)) * (2 : ℚ) ^ (e - 23) := by
    field_simp
  rw [hsplit, abs_mul, abs_of_pos hulp]
  have h1 := rne_spec (x / (2 : ℚ) ^ (e - 23))
  have h2 : (2 : ℚ) ^ (e - 23) = (2 : ℚ) ^ e / 2 ^ 23 := by
    rw [zpow_sub₀ two]; norm_cast
  calc |(rne (x / (2 : ℚ) ^ (e - 23)) : ℚ) - x / (2 : ℚ) ^ (e - 23)| * (2 : ℚ) ^ (e - 23)
      ≤ 1 / 2 * (2 : ℚ) ^ (e - 23) := mul_le_mul_of_nonneg_right h1 hulp.le
    _ = (2 : ℚ) ^ e / 2 ^ 24 := by rw [h2]; ring
    _ ≤ x / 2 ^ 24 := div_le_div_of_nonneg_right hle (by positivity)

/-- An integer below `2 ^ 24` is a single precision number: the conversion of such an
`uint32_t` to `float` is exact. -/
theorem f32_exact_nat (n : ℕ) (hn : n < 2 ^ 24) : f32 (n : ℚ) = n := by
  by_cases h0 : n = 0
  · subst h0; simp [f32]
  have hpos : (0 : ℚ) < (n : ℚ) := by exact_mod_cast Nat.pos_of_ne_zero h0
  have two : (2 : ℚ) ≠ 0 := by norm_num
  unfold f32
  rw [if_neg hpos.ne.symm]
  simp only [abs_of_pos hpos]
  set e := max (flog2 (n : ℚ)) (-126) with he
  have hflog : flog2 (n : ℚ) < 24 := by
    have h1 := (flog2_spec (n : ℚ) hpos).1
    have h2 : (n : ℚ) < (2 : ℚ) ^ (24 : ℤ) := by
      have h3 : (n : ℚ) < (2 : ℚ) ^ (24 : ℕ) := by exact_mod_cast hn
      rw [show ((24 : ℤ)) = ((24 : ℕ) : ℤ) by norm_num, zpow_natCast]
      exact h3
    exact (zpow_lt_zpow_iff_right₀ (by norm_num : (1 : ℚ) < 2)).mp (lt_of_le_of_lt h1 h2)
  have he23 : e ≤ 23 := by rw [he]; exact max_le (by omega) (by norm_num)
  obtain ⟨k, hk⟩ : ∃ k : ℕ, (k : ℤ) = 23 - e := ⟨(23 - e).toNat, Int.toNat_of_nonneg (by omega)⟩
  have hulp : (2 : ℚ) ^ (e - 23) = ((2 : ℚ) ^ k)⁻¹ := by
    rw [show e - 23 = -(k : ℤ) by omega, zpow_neg, zpow_natCast]
  have hq : (n : ℚ) / (2 : ℚ) ^ (e - 23) = ((n * 2 ^ k : ℕ) : ℤ) := by
    rw [hulp]; push_cast; field_simp
  rw [hq, rne_int, hulp]
  push_cast
  field_simp

/-! ## The sensor values and their text -/

/-- The smallest normal single precision number is below one hundredth. -/
theorem min_normal_le : (2 : ℚ) ^ (-126 : ℤ) ≤ 1 / 100 := by
  have h : (2 : ℚ) ^ (-126 : ℤ) ≤ (2 : ℚ) ^ (-7 : ℤ) :=
    zpow_le_zpow_right₀ (by norm_num) (by norm_num)
  have h7 : (2 : ℚ) ^ (-7 : ℤ) = 1 / 128 := by
    rw [zpow_neg]; norm_num
  rw [h7] at h
  linarith

/-- The single precision evaluation of `c + k / 100.0f` is within `400 / 2 ^ 24` of the
exact value, for `1 ≤ c ≤ 100` and `k ≤ 10000`. -/
theorem sample_error (c k : ℕ) (hc1 : 1 ≤ c) (hc2 : c ≤ 100) (hk : k ≤ 10000) :
    |f32 ((c : ℚ) + f32 (f32 (k : ℚ) / 100)) - ((c : ℚ) + (k : ℚ) / 100)| ≤ 400 / 2 ^ 24 := by
  rw [f32_exact_nat k (by omega)]
  have hcq1 : (1 : ℚ) ≤ (c : ℚ) := by exact_mod_cast hc1
  have hcq2 : (c : ℚ) ≤ 100 := by exact_mod_cast hc2
  have hkq : (k : ℚ) ≤ 10000 := by exact_mod_cast hk
  have hk0 : (0 : ℚ) ≤ (k : ℚ) := by positivity
  have hy : |f32 ((k : ℚ) / 100) - (k : ℚ) / 100| ≤ (k : ℚ) / 100 / 2 ^ 24 := by
    by_cases h0 : k = 0
    · subst h0; simp [f32]
    · apply f32_err
      have h1 : (1 : ℚ) ≤ (k : ℚ) := by exact_mod_cast Nat.pos_of_ne_zero h0
      have h2 := min_normal_le
      linarith
  rw [abs_le] at hy
  have hs : (2 : ℚ) ^ (-126 : ℤ) ≤ (c : ℚ) + f32 ((k : ℚ) / 100) := by
    have h2 := min_normal_le
    norm_num at hy
    linarith [hy.1]
  have hz := f32_err _ hs
  rw [abs_le] at hz ⊢
  norm_num at hy hz ⊢
  constructor <;> linarith [hy.1, hy.2, hz.1, hz.2]

/-- The text printed by `%.2f` for a non-negative value that rounds to `h` hundredths. -/
theorem fmt_2f_of_hundredths (x : ℚ) (h : ℕ) (hx : 0 ≤ x) (hr : rne (|x| * 100) = (h : ℤ)) :
    fmt_2f x = fmt_u (h / 100) ++ cstr "." ++ [48 + h % 100 / 10, 48 + h % 10] := by
  unfold fmt_2f
  simp only [hr, Int.toNat_ofNat, if_neg (not_lt.mpr hx), List.nil_append]

/-- The text printed by `%.2f` for any value less than half a hundredth away from
`c + k / 100` is the two-decimal rendering of `c + k / 100`. -/
theorem fmt_2f_close (c k : ℕ) (x : ℚ) (hc : 1 ≤ c)
    (hx : |x - ((c : ℚ) + (k : ℚ) / 100)| < 1 / 200) : fmt_2f x = spec_two_decimals c k := by
  have hcq1 : (1 : ℚ) ≤ (c : ℚ) := by exact_mod_cast hc
  have hk0 : (0 : ℚ) ≤ (k : ℚ) := by positivity
  rw [abs_lt] at hx
  have hpos : 0 < x := by linarith [hx.1]
  have hr : rne (|x| * 100) = ((100 * c + k : ℕ) : ℤ) := by
    rw [abs_of_pos hpos]
    apply rne_eq_of_close
    rw [abs_lt]
    push_cast
    constructor <;> linarith [hx.1, hx.2]
  rw [fmt_2f_of_hundredths _ _ hpos.le hr]
  unfold spec_two_decimals
  have e1 : (100 * c + k) / 100 = c + k / 100 := by omega
  have e2 : (100 * c + k) % 100 = k % 100 := by omega
  have e3 : (100 * c + k) % 10 = k % 10 := by omega
  rw [e1, e2, e3]

/-- The text printed by `%.2f` for the single precision value of `c + k / 100.0f` is the
two-decimal rendering of the exact value. -/
theorem fmt_2f_sample (c k : ℕ) (hc1 : 1 ≤ c) (hc2 : c ≤ 100) (hk : k ≤ 10000) :
    fmt_2f (f32 ((c : ℚ) + f32 (f32 (k : ℚ) / 100))) = spec_two_decimals c k := by
  apply fmt_2f_close c k _ hc1
  exact lt_of_le_of_lt (sample_error c k hc1 hc2 hk) (by norm_num)

/-- The text printed by `%.2f` for the exact value `c + k / 100` is its two-decimal
rendering. -/
theorem fmt_2f_exact (c k : ℕ) (hc : 1 ≤ c) :
    fmt_2f ((c : ℚ) + (k : ℚ) / 100) = spec_two_decimals c k := by
  apply fmt_2f_close c k _ hc
  simp

/-- The telemetry text the program formats is the one the specification describes. -/
theorem telemetry_text_eq (rand_temp rand_humi : ℕ) :
    telemetry_text (temperature rand_temp) (humidity rand_humi)
      = spec_telemetry (rand_temp % 1500) (rand_humi % 7000) := by
  have ht := fmt_2f_sample 20 (rand_temp % 1500) (by norm_num) (by norm_num)
    (by have := Nat.mod_lt rand_temp (by norm_num : 0 < 1500); omega)
  have hh := fmt_2f_sample 30 (rand_humi % 7000) (by norm_num) (by norm_num)
    (by have := Nat.mod_lt rand_humi (by norm_num : 0 < 7000); omega)
  simp only [Nat.cast_ofNat] at ht hh
  unfold telemetry_text temperature humidity spec_telemetry
  rw [ht, hh]

/-- The two-decimal rendering of a value with two integer digits has five bytes, none of
them NUL. -/
theorem spec_two_decimals_bytes (c k : ℕ) (h1 : 10 ≤ c + k / 100) (h2 : c + k / 100 < 100) :
    (spec_two_decimals c k).length = 5 ∧ ∀ b ∈ spec_two_decimals c k, b ≠ 0 := by
  unfold spec_two_decimals
  rw [fmt_u_two_digits _ h1 h2]
  constructor
  · rfl
  · intro b hb
    have hdot : cstr "." = [46] := by decide
    rw [hdot] at hb
    simp only [List.cons_append, List.nil_append, List.mem_cons, List.mem_singleton,
      List.not_mem_nil, or_false] at hb
    omega

/-- The telemetry text has 39 bytes, none of them NUL. -/
theorem spec_telemetry_bytes (kt kh : ℕ) (ht : kt < 1500) (hh : kh < 7000) :
    (spec_telemetry kt kh).length = 39 ∧ ∀ b ∈ spec_telemetry kt kh, b ≠ 0 := by
  obtain ⟨l1, n1⟩ := spec_two_decimals_bytes 20 kt (by omega) (by omega)
  obtain ⟨l2, n2⟩ := spec_two_decimals_bytes 30 kh (by omega) (by omega)
  have b1 : ∀ b ∈ cstr "Temperature: ", b ≠ 0 := by decide
  have b2 : ∀ b ∈ cstr "°C, Humidity: ", b ≠ 0 := by decide
  have b3 : ∀ b ∈ cstr "%", b ≠ 0 := by decide
  have c1 : (cstr "Temperature: ").length = 13 := by decide
  have c2 : (cstr "°C, Humidity: ").length = 15 := by decide
  have c3 : (cstr "%").length = 1 := by decide
  unfold spec_telemetry
  constructor
  · simp only [List.length_append, l1, l2, c1, c2, c3]
  · intro b hb
    simp only [List.mem_append] at hb
    rcases hb with (((hb | hb) | hb) | hb) | hb
    · exact b1 b hb
    · exact n1 b hb
    · exact b2 b hb
    · exact n2 b hb
    · exact b3 b hb

/-- The publish request of one loop iteration: it is built by `param` with the length 39,
and when it is issued `tx_buffer` holds the telemetry text followed by a NUL. -/
theorem loop_body_publish (r : Run) (it : IterEnv) :
    ∃ m : Memory,
      publishes (loop_body r it).trace
          = publishes r.trace ++ [(m, param 39 (sys_rand32_get it.rand_id))]
      ∧ m.tx_buffer.take 39 = spec_telemetry (sys_rand32_get it.rand_temp % 1500)
          (sys_rand32_get it.rand_humi % 7000)
      ∧ strlen m.tx_buffer = 39 := by
  obtain ⟨-, -, -, -, m, -, hbuf, hpub⟩ := loop_body_spec r it
  have hkt := Nat.mod_lt (sys_rand32_get it.rand_temp) (by norm_num : 0 < 1500)
  have hkh := Nat.mod_lt (sys_rand32_get it.rand_humi) (by norm_num : 0 < 7000)
  obtain ⟨hlen, hbytes⟩ := spec_telemetry_bytes _ _ hkt hkh
  rw [telemetry_text_eq] at hbuf hpub
  obtain ⟨f1, f2⟩ := snprintf_fits (deliver r.mem it.events).tx_buffer
    (spec_telemetry (sys_rand32_get it.rand_temp % 1500) (sys_rand32_get it.rand_humi % 7000))
    256 (by rw [hlen]; norm_num)
  rw [f2, hlen] at hpub
  rw [f1] at hbuf
  refine ⟨m, hpub, ?_, ?_⟩
  · rw [hbuf, ← hlen, List.take_left']
    rfl
  · rw [hbuf, strlen_text _ _ hbytes, hlen]

/-- Claim C5: the publish request built in one loop iteration has the topic
`"sensors/temperature_humidity"`, QoS 2, dup 0, retain 0, and its payload is byte for byte
the text `"Temperature: T°C, Humidity: H%"` where `T` and `H` are the two-decimal
renderings of `20 + (rand_temp mod 1500) / 100` and `30 + (rand_humi mod 7000) / 100`; with
the remainders 345 and 2510 the payload is `"Temperature: 23.45°C, Humidity: 55.10%"`. -/
theorem publish_request_telemetry (r : Run) (it : IterEnv) :
    ∃ (m : Memory) (p : mqtt_publish_param),
      publishes (loop_body r it).trace = publishes r.trace ++ [(m, p)]
      ∧ p.topic.topic = cstr "sensors/temperature_humidity"
      ∧ p.topic.qos = 2 ∧ p.dup_flag = 0 ∧ p.retain_flag = 0
      ∧ payload_bytes m p = spec_telemetry (sys_rand32_get it.rand_temp % 1500)
          (sys_rand32_get it.rand_humi % 7000)
      ∧ payload_bytes m p
          = telemetry_text (20 + ((sys_rand32_get it.rand_temp % 1500 : ℕ) : ℚ) / 100)
              (30 + ((sys_rand32_get it.rand_humi % 7000 : ℕ) : ℚ) / 100)
      ∧ (∀ t h : ℚ,
          |t - (20 + ((sys_rand32_get it.rand_temp % 1500 : ℕ) : ℚ) / 100)| < 1 / 200 →
          |h - (30 + ((sys_rand32_get it.rand_humi % 7000 : ℕ) : ℚ) / 100)| < 1 / 200 →
          payload_bytes m p = telemetry_text t h)
      ∧ (sys_rand32_get it.rand_temp % 1500 = 345 → sys_rand32_get it.rand_humi % 7000 = 2510 →
          payload_bytes m p = cstr "Temperature: 23.45°C, Humidity: 55.10%") := by
  obtain ⟨m, hpub, htake, -⟩ := loop_body_publish r it
  have hpay : payload_bytes m (param 39 (sys_rand32_get it.rand_id))
      = spec_telemetry (sys_rand32_get it.rand_temp % 1500)
          (sys_rand32_get it.rand_humi % 7000) := by
    rw [← htake]; rfl
  refine ⟨m, param 39 (sys_rand32_get it.rand_id), hpub, rfl, rfl, rfl, rfl, hpay, ?_, ?_, ?_⟩
  · rw [hpay]
    have e1 := fmt_2f_exact 20 (sys_rand32_get it.rand_temp % 1500) (by norm_num)
    have e2 := fmt_2f_exact 30 (sys_rand32_get it.rand_humi % 7000) (by norm_num)
    simp only [Nat.cast_ofNat] at e1 e2
    unfold telemetry_text spec_telemetry
    rw [e1, e2]
  · intro t h ht hh
    rw [hpay]
    have e1 := fmt_2f_close 20 (sys_rand32_get it.rand_temp % 1500) t (by norm_num)
      (by simpa using ht)
    have e2 := fmt_2f_close 30 (sys_rand32_get it.rand_humi % 7000) h (by norm_num)
      (by simpa using hh)
    unfold telemetry_text spec_telemetry
    rw [e1, e2]
  · intro h1 h2
    rw [hpay, h1, h2]
    decide

/-- Witness for C5: the random source returns 345 and 2510. -/
theorem publish_request_telemetry_witness :
    ∃ (m : Memory) (p : mqtt_publish_param),
      publishes (main env_connected).trace = [(m, p)]
      ∧ p.topic.topic = cstr "sensors/temperature_humidity"
      ∧ p.topic.qos = 2
      ∧ payload_bytes m p = cstr "Temperature: 23.45°C, Humidity: 55.10%" := by
  obtain ⟨m, p, h1, h2, h3, -, -, -, -, -, h8⟩ :=
    publish_request_telemetry (main_subscribe env_connected)
      { events := [], rand_temp := 345, rand_humi := 2510, rand_id := 9, res := 0 }
  refine ⟨m, p, ?_, h2, h3, h8 (by decide) (by decide)⟩
  have hmain : main env_connected = loop_body (main_subscribe env_connected)
      { events := [], rand_temp := 345, rand_humi := 2510, rand_id := 9, res := 0 } :=
    main_connected env_connected rfl (by decide)
  rw [hmain, h1, (main_subscribe_spec env_connected).2.2.2]
  rfl

/-- Claim C9: for every pair of random values the formatted telemetry text has exactly 39
bytes (each value is printed with two integer digits, a point and two decimals, and the
degree sign takes two bytes); so the length returned by `snprintf` is 39, below the 256
bytes of the buffer, the text is stored whole, and the payload length passed to
`mqtt_publish` is the number of text bytes in the buffer. -/
theorem telemetry_length (rand_temp rand_humi : ℕ) (buf : List Nat) (r : Run) (it : IterEnv) :
    (fmt_2f (temperature rand_temp)).length = 5
    ∧ (fmt_2f (humidity rand_humi)).length = 5
    ∧ (cstr "°").length = 2
    ∧ (telemetry_text (temperature rand_temp) (humidity rand_humi)).length = 39
    ∧ (snprintf buf 256 (telemetry_text (temperature rand_temp) (humidity rand_humi))).2 = 39
    ∧ (snprintf buf 256 (telemetry_text (temperature rand_temp) (humidity rand_humi))).2 < 256
    ∧ (snprintf buf 256 (telemetry_text (temperature rand_temp) (humidity rand_humi))).1
        = telemetry_text (temperature rand_temp) (humidity rand_humi) ++ 0 :: buf.drop 40
    ∧ ∃ (m : Memory) (p : mqtt_publish_param),
        publishes (loop_body r it).trace = publishes r.trace ++ [(m, p)]
        ∧ p.payload_len = 39
        ∧ strlen m.tx_buffer = p.payload_len
        ∧ payload_bytes m p = telemetry_text (temperature (sys_rand32_get it.rand_temp))
            (humidity (sys_rand32_get it.rand_humi)) := by
  have hkt := Nat.mod_lt rand_temp (by norm_num : 0 < 1500)
  have hkh := Nat.mod_lt rand_humi (by norm_num : 0 < 7000)
  have hlen : (telemetry_text (temperature rand_temp) (humidity rand_humi)).length = 39 := by
    rw [telemetry_text_eq]; exact (spec_telemetry_bytes _ _ hkt hkh).1
  obtain ⟨f1, f2⟩ := snprintf_fits buf
    (telemetry_text (temperature rand_temp) (humidity rand_humi)) 256 (by rw [hlen]; norm_num)
  have ht : fmt_2f (temperature rand_temp) = spec_two_decimals 20 (rand_temp % 1500) := by
    have h := fmt_2f_sample 20 (rand_temp % 1500) (by norm_num) (by norm_num) (by omega)
    simp only [Nat.cast_ofNat] at h
    exact h
  have hh : fmt_2f (humidity rand_humi) = spec_two_decimals 30 (rand_humi % 7000) := by
    have h := fmt_2f_sample 30 (rand_humi % 7000) (by norm_num) (by norm_num) (by omega)
    simp only [Nat.cast_ofNat] at h
    exact h
  refine ⟨?_, ?_, by decide, hlen, ?_, ?_, ?_, ?_⟩
  · rw [ht]; exact (spec_two_decimals_bytes 20 _ (by omega) (by omega)).1
  · rw [hh]; exact (spec_two_decimals_bytes 30 _ (by omega) (by omega)).1
  · rw [f2, hlen]; rfl
  · rw [f2, hlen]; norm_num
  · rw [f1, hlen]
  · obtain ⟨m, hpub, htake, hstr⟩ := loop_body_publish r it
    refine ⟨m, param 39 (sys_rand32_get it.rand_id), hpub, rfl, hstr, ?_⟩
    rw [telemetry_text_eq, ← htake]
    rfl

/-- Claim C8: for every value `rand_temp` the temperature `20 + (rand_temp mod 1500) / 100`
lies between 20 and 35 and for every value `rand_humi` the humidity
`30 + (rand_humi mod 7000) / 100` lies between 30 and 100, in exact arithmetic and also as
the program computes them in single precision. -/
theorem sensor_ranges (rand_temp rand_humi : ℕ) :
    (20 : ℚ) ≤ 20 + ((rand_temp % 1500 : ℕ) : ℚ) / 100
    ∧ 20 + ((rand_temp % 1500 : ℕ) : ℚ) / 100 ≤ 35
    ∧ (30 : ℚ) ≤ 30 + ((rand_humi % 7000 : ℕ) : ℚ) / 100
    ∧ 30 + ((rand_humi % 7000 : ℕ) : ℚ) / 100 ≤ 100
    ∧ 20 ≤ temperature rand_temp ∧ temperature rand_temp ≤ 35
    ∧ 30 ≤ humidity rand_humi ∧ humidity rand_humi ≤ 100 := by
  have hkt := Nat.mod_lt rand_temp (by norm_num : 0 < 1500)
  have hkh := Nat.mod_lt rand_humi (by norm_num : 0 < 7000)
  have hkt1 : ((rand_temp % 1500 : ℕ) : ℚ) ≤ 1499 := by exact_mod_cast Nat.lt_succ_iff.mp hkt
  have hkh1 : ((rand_humi % 7000 : ℕ) : ℚ) ≤ 6999 := by exact_mod_cast Nat.lt_succ_iff.mp hkh
  have hkt0 : (0 : ℚ) ≤ ((rand_temp % 1500 : ℕ) : ℚ) := by positivity
  have hkh0 : (0 : ℚ) ≤ ((rand_humi % 7000 : ℕ) : ℚ) := by positivity
  have et := sample_error 20 (rand_temp % 1500) (by norm_num) (by norm_num) (by omega)
  have eh := sample_error 30 (rand_humi % 7000) (by norm_num) (by norm_num) (by omega)
  simp only [Nat.cast_ofNat] at et eh
  rw [abs_le] at et eh
  norm_num at et eh
  have c20 : f32 (20 : ℚ) = 20 := by
    have h := f32_exact_nat 20 (by norm_num); simpa using h
  have c30 : f32 (30 : ℚ) = 30 := by
    have h := f32_exact_nat 30 (by norm_num); simpa using h
  have c0 : f32 (0 : ℚ) = 0 := by simp [f32]
  refine ⟨by linarith, by linarith, by linarith, by linarith, ?_, ?_, ?_, ?_⟩
  · unfold temperature
    by_cases h0 : rand_temp % 1500 = 0
    · rw [h0]; simp [c0, c20]
    · have h1 : (1 : ℚ) ≤ ((rand_temp % 1500 : ℕ) : ℚ) := by
        exact_mod_cast Nat.pos_of_ne_zero h0
      linarith [et.1]
  · unfold temperature; linarith [et.2]
  · unfold humidity
    by_cases h0 : rand_humi % 7000 = 0
    · rw [h0]; simp [c0, c30]
    · have h1 : (1 : ℚ) ≤ ((rand_humi % 7000 : ℕ) : ℚ) := by
        exact_mod_cast Nat.pos_of_ne_zero h0
      linarith [eh.1]
  · unfold humidity; linarith [eh.2]

end MqttSensorSimulator
